import Mathlib

/-!
# Verification of `batch_job_submitter` (modelbuilder-tools)

Shallow embedding of the core algorithms of the repository:

* `JsonlProcessor` (src/batch_job_submitter/jsonl_processor.py):
  `validate`, `needs_splitting`, `split`.
* `BceApiSignatureTool` (src/batch_job_submitter/bce_auth.py):
  `_generate_canonical_headers`, `_generate_signature`.
* `JobSubmitter` (src/batch_job_submitter/job_submitter.py):
  `submit_job`, `check_task_status`, `list_tasks`.
* `wait_for_jobs` (src/batch_job_submitter/cli.py).

Files are modelled as lists of lines (each line a `String` without its
terminating newline, the usual notion of "line").  Machine arithmetic does
not occur: Python integers are unbounded, so `Nat` is exact.
-/

/-- Whitespace test used by Python's `str.strip()` (restricted to the
ASCII whitespace occurring in text files). -/
def isSpaceChar (c : Char) : Bool :=
  c == ' ' || c == '\t' || c == '\n' || c == '\r'

/-- Python's `str.strip()`: remove leading and trailing whitespace. -/
def pyStrip (s : String) : String :=
  ⟨(((s.data.dropWhile isSpaceChar).reverse.dropWhile isSpaceChar).reverse)⟩

/-- UTF-8 byte length of one character. -/
def utf8Len (c : Char) : Nat :=
  if c.toNat < 0x80 then 1
  else if c.toNat < 0x800 then 2
  else if c.toNat < 0x10000 then 3
  else 4

/-- UTF-8 byte length of a string. -/
def strBytes (s : String) : Nat := (s.data.map utf8Len).sum

namespace JsonlProcessor

/-- Python truthiness of a stripped line: `if not line` — the line is
blank iff its stripped form is empty. -/
def isBlank (line : String) : Bool := pyStrip line == ""

/-- The class constant `MAX_LINES = 50000`. -/
def MAX_LINES : Nat := 50000

/-- The class constant `MAX_SIZE_BYTES = 300 * 1024 * 1024`. -/
def MAX_SIZE_BYTES : Nat := 300 * 1024 * 1024

/-- Byte size of a file whose lines (newline-terminated) are `lines`:
each line contributes its UTF-8 byte length plus one newline byte.
Models `self.input_path.stat().st_size`. -/
def fileSize (lines : List String) : Nat :=
  lines.foldr (fun l acc => strBytes l + 1 + acc) 0

/-- `validate` (jsonl_processor.py lines 35-73), parametric in the JSON
parser: `isValidJson s` abstracts `json.loads(s)` succeeding.  Returns
`(valid_count, invalid_count)`. -/
def validate (isValidJson : String → Bool) : List String → Nat × Nat
  | [] => (0, 0)
  | line :: rest =>
    let (v, i) := validate isValidJson rest
    let s := pyStrip line
    if s == "" then (v, i + 1)
    else if isValidJson s then (v + 1, i) else (v, i + 1)

/-- Models the Python f-string `f"{bytes/1024/1024:.2f}MB"` (value rounded
to hundredths of a MiB). -/
def fmtMB (bytes : Nat) : String :=
  let h := (bytes * 100 + 524288) / 1048576
  toString (h / 100) ++ "." ++
    (if h % 100 < 10 then "0" else "") ++ toString (h % 100) ++ "MB"

/-- The reason string of jsonl_processor.py line 85. -/
def sizeReason (fsize maxBytes : Nat) : String :=
  "File size (" ++ fmtMB fsize ++ ") exceeds limit (" ++ fmtMB maxBytes ++ ")"

/-- The reason string of jsonl_processor.py line 90. -/
def lineReason (lcount maxLines : Nat) : String :=
  "Line count (" ++ toString lcount ++ ") exceeds limit (" ++
    toString maxLines ++ ")"

/-- `needs_splitting` (jsonl_processor.py lines 75-92) on a file of byte
size `fsize` with `lcount` lines; the thresholds are the class constants
`MAX_SIZE_BYTES` and `MAX_LINES`, kept as parameters because instances
may override them.  The size check comes first and short-circuits: when
it fires, the line count is never computed. -/
def needs_splitting (maxBytes maxLines fsize lcount : Nat) : Bool × String :=
  if maxBytes < fsize then (true, sizeReason fsize maxBytes)
  else if maxLines < lcount then (true, lineReason lcount maxLines)
  else (false, "")

/-- The streaming loop of `split` (jsonl_processor.py lines 128-158):
strip each line, skip blanks, accumulate into `current_chunk`, flush every
time the chunk reaches `lpc` lines, flush the non-empty remainder at end
of file.  Each element of the result is the line list of one chunk file,
in 1-based index order. -/
def splitGo (lpc : Nat) (acc : List String) : List String → List (List String)
  | [] => if acc.isEmpty then [] else [acc]
  | line :: rest =>
    let s := pyStrip line
    if s == "" then splitGo lpc acc rest
    else
      let acc' := acc ++ [s]
      if lpc ≤ acc'.length then acc' :: splitGo lpc [] rest
      else splitGo lpc acc' rest

/-- `split` (jsonl_processor.py lines 94-160): computes `chunk_count` from
the floor-division formulas of lines 120-122, `lines_per_chunk` from line
125, and runs the streaming loop. -/
def split (maxBytes maxLines : Nat) (lines : List String) : List (List String) :=
  let fsize := fileSize lines
  let lcount := lines.length
  let size_based_chunks := fsize / maxBytes + 1
  let line_based_chunks := lcount / maxLines + 1
  let chunk_count := max size_based_chunks line_based_chunks
  let lines_per_chunk := lcount / chunk_count + 1
  splitGo lines_per_chunk [] lines

/-- The stripped non-blank lines of a file, in order: what `split`
actually distributes over chunks. -/
def nonBlank (lines : List String) : List String :=
  (lines.map pyStrip).filter (fun s => !(s == ""))

end JsonlProcessor

/-! ## String helpers shared by the remaining components

Self-contained models of the Python string primitives the source uses
(`startswith`, `endswith`, `replace`, `in`, `split`, `lower`, `rstrip`),
defined over the character list of the string so that they compute. -/

/-- `pre` is a prefix of `l` (character lists). -/
def startsWithChars : List Char → List Char → Bool
  | [], _ => true
  | _ :: _, [] => false
  | p :: ps, c :: cs => p == c && startsWithChars ps cs

/-- Python `s.startswith(pre)`. -/
def strStartsWith (s pre : String) : Bool := startsWithChars pre.data s.data

/-- Python `s.endswith(suf)`. -/
def strEndsWith (s suf : String) : Bool :=
  startsWithChars suf.data.reverse s.data.reverse

/-- Python `pat in s` on character lists: some tail of `l` starts with
`pat`. -/
def containsChars (pat : List Char) : List Char → Bool
  | [] => startsWithChars pat []
  | c :: cs => startsWithChars pat (c :: cs) || containsChars pat cs

/-- Python `pat in s`. -/
def strContains (s pat : String) : Bool := containsChars pat.data s.data

/-- Python `s.replace(pat, repl)` on character lists: left-to-right,
non-overlapping, all occurrences.  `pat` is passed pattern-head first so
it is never empty; the fuel argument (instantiated with the list length,
which always suffices) makes the recursion structural. -/
def replaceChars (p : Char) (ps repl : List Char) : Nat → List Char → List Char
  | _, [] => []
  | 0, l => l
  | fuel + 1, c :: cs =>
    if startsWithChars (p :: ps) (c :: cs) then
      repl ++ replaceChars p ps repl fuel (cs.drop ps.length)
    else c :: replaceChars p ps repl fuel cs

/-- Python `s.replace(pat, repl)` (no-op for an empty pattern; the source
only uses non-empty patterns). -/
def strReplace (s pat repl : String) : String :=
  match pat.data with
  | [] => s
  | p :: ps => ⟨replaceChars p ps repl.data s.data.length s.data⟩

/-- Python `s.split(sep)` for a single-character separator: always returns
at least one (possibly empty) field. -/
def splitChars (sep : Char) : List Char → List (List Char)
  | [] => [[]]
  | c :: cs =>
    let rest := splitChars sep cs
    if c == sep then [] :: rest
    else (c :: rest.headD []) :: rest.tail

/-- Python `s.split("/")` as strings. -/
def strSplitSlash (s : String) : List String :=
  (splitChars '/' s.data).map (fun l => ⟨l⟩)

/-- Python `"/".join(parts)`. -/
def joinSlash : List String → String
  | [] => ""
  | [s] => s
  | s :: rest => s ++ "/" ++ joinSlash rest

/-- Python `s.rstrip("/")`: remove all trailing `'/'` characters. -/
def rstripSlash (s : String) : String :=
  ⟨(s.data.reverse.dropWhile (fun c => c == '/')).reverse⟩

/-- ASCII lower-casing of one character, as Python `str.lower()` acts on
the ASCII strings the source feeds it. -/
def lowerChar (c : Char) : Char :=
  if 'A' ≤ c && c ≤ 'Z' then Char.ofNat (c.toNat + 32) else c

/-- Python `s.lower()`. -/
def pyLower (s : String) : String := ⟨s.data.map lowerChar⟩

/-- Lexicographic (code-point) comparison of character lists, the order
Python `list.sort()` uses on strings. -/
def leChars : List Char → List Char → Bool
  | [], _ => true
  | _ :: _, [] => false
  | a :: as, b :: bs =>
    if a.toNat < b.toNat then true
    else if b.toNat < a.toNat then false
    else leChars as bs

/-- Lexicographic `≤` on strings. -/
def strLe (a b : String) : Bool := leChars a.data b.data

/-- Insert into a sorted list (stable insertion sort step). -/
def insertSorted (x : String) : List String → List String
  | [] => [x]
  | y :: ys => if strLe y x then y :: insertSorted x ys else x :: y :: ys

/-- Python `list.sort()` on strings: stable lexicographic sort. -/
def sortStrings : List String → List String
  | [] => []
  | x :: xs => insertSorted x (sortStrings xs)

namespace BceAuth

/-! Embedding of `BceApiSignatureTool` (src/batch_job_submitter/bce_auth.py).
SHA-256 itself is kept abstract: `hmacSha256 key msg` stands for the raw
32-byte HMAC-SHA256 digest (`hmac.new(key, msg, hashlib.sha256).digest()`),
and `hexDigest` is the concrete lower-case hex encoding, so that
`hexDigest (hmacSha256 k m)` models Python's `.hexdigest()`. -/

/-- Lower-case hex digit. -/
def hexDigitLower (n : Nat) : Char :=
  if n < 10 then Char.ofNat (48 + n) else Char.ofNat (87 + n)

/-- Lower-case hex encoding of a byte sequence: Python's `.hexdigest()`
applied to a digest. -/
def hexDigest (bytes : List Nat) : String :=
  ⟨bytes.flatMap (fun b => [hexDigitLower (b / 16 % 16), hexDigitLower (b % 16)])⟩

/-- Upper-case hex digit, as used by `urllib.parse.quote`. -/
def hexDigitUpper (n : Nat) : Char :=
  if n < 10 then Char.ofNat (48 + n) else Char.ofNat (55 + n)

/-- UTF-8 bytes of one character. -/
def utf8Bytes (c : Char) : List Nat :=
  let n := c.toNat
  if n < 0x80 then [n]
  else if n < 0x800 then
    [0xC0 + n / 64, 0x80 + n % 64]
  else if n < 0x10000 then
    [0xE0 + n / 4096, 0x80 + n / 64 % 64, 0x80 + n % 64]
  else
    [0xF0 + n / 262144, 0x80 + n / 4096 % 64, 0x80 + n / 64 % 64, 0x80 + n % 64]

/-- The bytes `urllib.parse.quote` never escapes: ASCII letters, digits,
`_`, `.`, `-`, `~`. -/
def isAlwaysSafeByte (b : Nat) : Bool :=
  (48 ≤ b && b ≤ 57) || (65 ≤ b && b ≤ 90) || (97 ≤ b && b ≤ 122) ||
    b == 45 || b == 46 || b == 95 || b == 126

/-- `urllib.parse.quote(s, safe)` where `safe` lists the extra bytes left
unescaped (the source uses `safe=""` for headers and the default
`safe="/"` for the URI path). -/
def quote (safe : List Char) (s : String) : String :=
  ⟨(s.data.flatMap utf8Bytes).flatMap (fun b =>
    if isAlwaysSafeByte b || safe.any (fun c => c.toNat == b) then
      [Char.ofNat b]
    else ['%', hexDigitUpper (b / 16), hexDigitUpper (b % 16)])⟩

/-- `BceApiSignatureTool._generate_canonical_headers` (bce_auth.py lines
37-44): per header `quote(key.lower(), safe="") + ":" + quote(value,
safe="")`, sorted, joined by newline.  Headers are an association list in
insertion order, modelling the Python dict. -/
def generate_canonical_headers (headers : List (String × String)) : String :=
  String.intercalate "\n"
    (sortStrings (headers.map (fun kv =>
      quote [] (pyLower kv.1) ++ ":" ++ quote [] kv.2)))

/-- `BceApiSignatureTool._generate_signature` (bce_auth.py lines 46-69),
parametric in the raw HMAC-SHA256 digest function. -/
def generate_signature (hmacSha256 : String → String → List Nat)
    (ak sk : String) (expiration_seconds : Nat)
    (method uri query : String) (headers : List (String × String))
    (signed_headers x_bce_date : String) : String :=
  let auth_string_prefix :=
    "bce-auth-v1/" ++ ak ++ "/" ++ x_bce_date ++ "/" ++ toString expiration_seconds
  let canonical_uri := quote ['/'] uri
  let canonical_query_string := query
  let canonical_headers := generate_canonical_headers headers
  let canonical_request :=
    method ++ "\n" ++ canonical_uri ++ "\n" ++ canonical_query_string ++
      "\n" ++ canonical_headers
  let signing_key := hmacSha256 sk auth_string_prefix
  let signature := hmacSha256 (hexDigest signing_key) canonical_request
  auth_string_prefix ++ "/" ++ signed_headers ++ "/" ++ hexDigest signature

/-! Spec-side rendering of the signing algorithm, written from the words
of spec §4.1 / claim C3, to be compared with the embedding above. -/

/-- Spec step 1, per header: "lower-case and percent-encode the key,
percent-encode the value, join key and value with `:`". -/
def specHeaderLine (key value : String) : String :=
  quote [] (pyLower key) ++ ":" ++ quote [] value

/-- Spec step 1: "sort the resulting strings lexicographically, join with
newline". -/
def specCanonicalHeaders (headers : List (String × String)) : String :=
  String.intercalate "\n"
    (sortStrings (headers.map (fun kv => specHeaderLine kv.1 kv.2)))

/-- Spec steps 2-6: auth-string prefix, four-field canonical request,
signing key = HMAC-SHA256(secretKey, authStringPrefix), signature =
HMAC-SHA256 of the raw canonical request keyed by the hex encoding of the
signing key, final string `{authStringPrefix}/{signedHeaderNames}/{signatureHex}`. -/
def specSignature (hmacSha256 : String → String → List Nat)
    (ak sk : String) (expiration_seconds : Nat)
    (method uri query : String) (headers : List (String × String))
    (signedHeaderNames xBceDate : String) : String :=
  let authStringPrefix :=
    "bce-auth-v1/" ++ ak ++ "/" ++ xBceDate ++ "/" ++ toString expiration_seconds
  let canonicalRequest :=
    method ++ "\n" ++ quote ['/'] uri ++ "\n" ++ query ++ "\n" ++
      specCanonicalHeaders headers
  let signingKey := hmacSha256 sk authStringPrefix
  let signatureHex := hexDigest (hmacSha256 (hexDigest signingKey) canonicalRequest)
  authStringPrefix ++ "/" ++ signedHeaderNames ++ "/" ++ signatureHex

end BceAuth

namespace JobSubmitter

/-! Embedding of `JobSubmitter` (src/batch_job_submitter/job_submitter.py).
The remote service is a parameter: `createTask input output` models
`Data.create_offline_batch_inference_task` returning either a task id or
raising (its exception message); page fetches model the signed POST of
`DescribeBatchInferenceTasks`. -/

/-- Exceptions `submit_job` raises before its `try` block: the
`ImportError` of line 93 and the `ValueError` of line 102. -/
inductive SubmitError where
  | importError : SubmitError
  | valueError : SubmitError
deriving DecidableEq, Repr

/-- The environment of `submit_job`: whether the `qianfan` package
imported, and the remote task-creation call. -/
structure SubmitEnv where
  hasQianfan : Bool
  createTask : String → String → Except String String

/-- The retry loop of job_submitter.py lines 177-201: try each alternative
URI format, return the first success, fall through to `(False, "")`. -/
def tryAlternatives (env : SubmitEnv) : List String → Bool × String
  | [] => (false, "")
  | alt :: rest =>
    match env.createTask alt alt with
    | .ok tid => (true, tid)
    | .error _ => tryAlternatives env rest

/-- `JobSubmitter.submit_job` (job_submitter.py lines 75-203).  A raised
exception is `.error`; a normal return is `.ok (success, task_id)`. -/
def submit_job (env : SubmitEnv) (bos_uri : String) : Except SubmitError (Bool × String) :=
  if !env.hasQianfan then .error .importError
  else
    let uri :=
      if strStartsWith bos_uri "bos://" then strReplace bos_uri "bos://" "bos:/"
      else bos_uri
    if !(strStartsWith uri "bos:/") then .error .valueError
    else
      let parts := strSplitSlash (strReplace uri "bos:/" "")
      let bucket := parts.headD ""
      let key := joinSlash parts.tail
      let uri' := if strEndsWith uri "/" then rstripSlash uri else uri
      match env.createTask uri' uri' with
      | .ok tid => .ok (true, tid)
      | .error e =>
        if strContains e "InvalidBosUri" then
          .ok (tryAlternatives env
            ["bos:/" ++ bucket ++ "/" ++ key,
             "bos://" ++ bucket ++ "/" ++ key,
             bucket ++ "/" ++ key])
        else .ok (false, "")

/-- The fields of one task record the code reads (`taskId`, `runStatus`,
`progress`; the other projected fields do not affect control flow and are
omitted). -/
structure TaskResult where
  taskId : String
  runStatus : String
  progress : Nat
deriving DecidableEq, Repr

/-- The `task_info` projection surfaced to callers. -/
structure TaskInfo where
  taskId : String
  status : String
  progress : Nat
deriving DecidableEq, Repr

/-- `JobSubmitter.check_task_status` (job_submitter.py lines 205-261):
any error in the request or response parsing is caught and returns the
empty dict, modelled as `none`; on success the `result` is projected,
`status` taken from `runStatus`. -/
def check_task_status (resp : Except String TaskResult) : Option TaskInfo :=
  match resp with
  | .error _ => none
  | .ok r => some ⟨r.taskId, r.runStatus, r.progress⟩

/-- One page of `DescribeBatchInferenceTasks`:
`result.taskList` and `result.pageInfo.isTruncated`. -/
structure Page where
  taskList : List TaskResult
  isTruncated : Bool

/-- The inner `for task in task_list` of job_submitter.py lines 311-334:
collect until `limit`, updating the pagination marker to each collected
task's id. -/
def collectPage (limit : Nat) (acc : List TaskResult) (marker : String) :
    List TaskResult → List TaskResult × String
  | [] => (acc, marker)
  | t :: ts =>
    if limit ≤ acc.length then (acc, marker)
    else collectPage limit (acc ++ [t]) t.taskId ts

/-- The `while tasks_collected < limit` loop of job_submitter.py lines
284-348.  `fetch marker` models the signed POST for one page (`.error` =
a caught request/parse exception, which breaks the loop).  Returns the
collected tasks and the number of page requests issued.  The fuel is an
upper bound on iterations; `limit + 1` always suffices because every
continuing iteration collects at least one task. -/
def listGo (fetch : String → Except String Page) (limit : Nat) :
    Nat → String → List TaskResult → Nat → List TaskResult × Nat
  | 0, _, acc, reqs => (acc, reqs)
  | fuel + 1, marker, acc, reqs =>
    if acc.length < limit then
      match fetch marker with
      | .error _ => (acc, reqs + 1)
      | .ok page =>
        let step := collectPage limit acc marker page.taskList
        if !page.isTruncated || page.taskList.isEmpty then (step.1, reqs + 1)
        else listGo fetch limit fuel step.2 step.1 (reqs + 1)
    else (acc, reqs)

/-- `JobSubmitter.list_tasks` (job_submitter.py lines 263-358) together
with the number of page requests it issues: collect pages, then apply the
offset by slicing (line 352) and truncate to `limit` (line 354). -/
def listTasksRun (fetch : String → Except String Page) (limit offset : Nat) :
    List TaskResult × Nat :=
  let run := listGo fetch limit (limit + 1) "" [] 0
  let all := if 0 < offset then run.1.drop offset else run.1
  (all.take limit, run.2)

/-- The task list `list_tasks` returns. -/
def list_tasks (fetch : String → Except String Page) (limit offset : Nat) :
    List TaskResult :=
  (listTasksRun fetch limit offset).1

end JobSubmitter

namespace Cli

/-- The terminal-status list of `wait_for_jobs` (cli.py line 322). -/
def waitTerminalStatuses : List String := ["SUCCESS", "FAILED", "CANCELED"]

/-- One full sweep of the polling loop of `wait_for_jobs` (cli.py lines
309-325): query each pending task; an empty status (`none`) keeps it
pending; a task is removed from the pending set iff its reported status
is in `waitTerminalStatuses`. -/
def sweep (statusOf : String → Option JobSubmitter.TaskInfo)
    (pending : List String) : List String :=
  pending.filter (fun tid =>
    match statusOf tid with
    | none => true
    | some st => !(waitTerminalStatuses.contains st.status))

end Cli

/-- Ceiling division, as the spec's `ceil(a/b)` on natural quantities. -/
def ceilDiv (a b : Nat) : Nat := (a + b - 1) / b

/-! ## Lemmas about the chunking loop -/

namespace JsonlProcessor

theorem nonBlank_cons (l : String) (ls : List String) :
    nonBlank (l :: ls) =
      if pyStrip l == "" then nonBlank ls else pyStrip l :: nonBlank ls := by
  by_cases h : pyStrip l == "" <;> simp [nonBlank, h]

theorem nonBlank_eq_map_filter (lines : List String) :
    nonBlank lines = (lines.filter (fun l => !(pyStrip l == ""))).map pyStrip := by
  induction lines with
  | nil => rfl
  | cons l ls ih =>
    by_cases h : pyStrip l == "" <;>
      simp [nonBlank_cons, h, ih, List.filter_cons]

theorem nonBlank_length_le (lines : List String) :
    (nonBlank lines).length ≤ lines.length := by
  calc (nonBlank lines).length ≤ (lines.map pyStrip).length :=
        List.length_filter_le _ _
    _ = lines.length := List.length_map _ _

theorem splitGo_nil_empty {lpc : Nat} {acc : List String} (h : acc.isEmpty = true) :
    splitGo lpc acc [] = [] := by simp [splitGo, h]

theorem splitGo_nil_rem {lpc : Nat} {acc : List String} (h : acc.isEmpty = false) :
    splitGo lpc acc [] = [acc] := by simp [splitGo, h]

theorem splitGo_cons_blank {lpc : Nat} {acc : List String} {line : String}
    {rest : List String} (h : (pyStrip line == "") = true) :
    splitGo lpc acc (line :: rest) = splitGo lpc acc rest := by
  simp [splitGo, h]

theorem splitGo_cons_flush {lpc : Nat} {acc : List String} {line : String}
    {rest : List String} (h : (pyStrip line == "") = false)
    (h2 : lpc ≤ acc.length + 1) :
    splitGo lpc acc (line :: rest) =
      (acc ++ [pyStrip line]) :: splitGo lpc [] rest := by
  simp [splitGo, h, h2]

theorem splitGo_cons_grow {lpc : Nat} {acc : List String} {line : String}
    {rest : List String} (h : (pyStrip line == "") = false)
    (h2 : ¬lpc ≤ acc.length + 1) :
    splitGo lpc acc (line :: rest) =
      splitGo lpc (acc ++ [pyStrip line]) rest := by
  simp [splitGo, h, h2]

/-- The concatenation of the chunks equals the pending buffer followed by
the stripped non-blank lines still to be read. -/
theorem splitGo_flatten (lpc : Nat) (l : List String) :
    ∀ acc, (splitGo lpc acc l).flatten = acc ++ nonBlank l := by
  induction l with
  | nil =>
    intro acc
    cases h : acc.isEmpty
    · simp [splitGo_nil_rem h, nonBlank]
    · rw [splitGo_nil_empty h, List.isEmpty_iff.mp h]
      simp [nonBlank]
  | cons line rest ih =>
    intro acc
    cases hb : pyStrip line == ""
    · by_cases h2 : lpc ≤ acc.length + 1
      · simp [splitGo_cons_flush hb h2, ih, nonBlank_cons, hb]
      · simp [splitGo_cons_grow hb h2, ih, nonBlank_cons, hb]
    · simp [splitGo_cons_blank hb, ih, nonBlank_cons, hb]

/-- Chunk-size invariant of the loop: while the pending buffer is shorter
than `lpc`, every produced chunk is non-empty with at most `lpc` lines,
and every chunk except possibly the last has exactly `lpc` lines. -/
theorem splitGo_sizes (lpc : Nat) (l : List String) :
    ∀ acc, acc.length < lpc →
      (∀ c ∈ splitGo lpc acc l, 0 < c.length ∧ c.length ≤ lpc) ∧
      (∀ c ∈ (splitGo lpc acc l).dropLast, c.length = lpc) := by
  induction l with
  | nil =>
    intro acc hacc
    cases h : acc.isEmpty
    · constructor
      · intro c hc
        rw [splitGo_nil_rem h] at hc
        rw [List.mem_singleton] at hc
        subst hc
        exact ⟨List.length_pos.mpr (by simpa using h), le_of_lt hacc⟩
      · intro c hc
        rw [splitGo_nil_rem h] at hc
        simp at hc
    · rw [splitGo_nil_empty h]
      simp
  | cons line rest ih =>
    intro acc hacc
    cases hb : pyStrip line == ""
    · by_cases h2 : lpc ≤ acc.length + 1
      · have hlen : (acc ++ [pyStrip line]).length = lpc := by simp; omega
        have h0 : ([] : List String).length < lpc := by simp; omega
        obtain ⟨ih1, ih2⟩ := ih [] h0
        rw [splitGo_cons_flush hb h2]
        constructor
        · intro c hc
          rcases List.mem_cons.mp hc with rfl | hc'
          · exact ⟨by simp, hlen.le⟩
          · exact ih1 c hc'
        · intro c hc
          rcases htail : splitGo lpc [] rest with _ | ⟨t, ts⟩
          · rw [htail] at hc
            simp at hc
          · rw [htail, List.dropLast_cons₂] at hc
            rcases List.mem_cons.mp hc with rfl | hc'
            · exact hlen
            · exact ih2 c (by rw [htail]; exact hc')
      · have hlt : (acc ++ [pyStrip line]).length < lpc := by
          simp
          omega
        rw [splitGo_cons_grow hb h2]
        exact ih _ hlt
    · rw [splitGo_cons_blank hb]
      exact ih acc hacc

end JsonlProcessor

/-! ## Claims about `JsonlProcessor` -/

/-- Claim C1, as stated, is false: with ceilings `maxBytes = 1000000`,
`maxLines = 4` and a six-line file, the claim's
`lines_per_chunk = ceil(L / max(ceil(S/maxBytes), ceil(L/maxLines)))`
is `ceil(6/2) = 3`, but the first (non-final) chunk `split` writes holds
4 lines: the code computes both quotients with `floor + 1`, not `ceil`. -/
theorem C1_counterexample :
    ¬(∀ c ∈ (JsonlProcessor.split 1000000 4
          ["a", "b", "c", "d", "e", "f"]).dropLast,
        c.length = ceilDiv 6
          (max (ceilDiv (JsonlProcessor.fileSize ["a", "b", "c", "d", "e", "f"])
                  1000000)
            (ceilDiv 6 4))) := by decide

/-- Claim C1 (amended): `split` computes
`chunk_count = max(floor(S/maxBytes) + 1, floor(L/maxLines) + 1)` and
`lines_per_chunk = floor(L/chunk_count) + 1`; every chunk it writes
except possibly the final one holds exactly `lines_per_chunk` stripped
non-blank lines, every chunk is non-empty with at most `lines_per_chunk`
lines, and together the chunks hold exactly the stripped non-blank lines
of the file in order (the final chunk thus holds the remainder). -/
theorem C1_amended_chunk_shape (maxBytes maxLines : Nat) (lines : List String)
    (hB : 0 < maxBytes) (hL : 0 < maxLines) :
    (∀ c ∈ (JsonlProcessor.split maxBytes maxLines lines).dropLast,
        c.length =
          lines.length /
              max (JsonlProcessor.fileSize lines / maxBytes + 1)
                (lines.length / maxLines + 1) + 1) ∧
    (∀ c ∈ JsonlProcessor.split maxBytes maxLines lines,
        0 < c.length ∧
          c.length ≤
            lines.length /
                max (JsonlProcessor.fileSize lines / maxBytes + 1)
                  (lines.length / maxLines + 1) + 1) ∧
    (JsonlProcessor.split maxBytes maxLines lines).flatten =
      JsonlProcessor.nonBlank lines := by
  have h := JsonlProcessor.splitGo_sizes
    (lines.length /
        max (JsonlProcessor.fileSize lines / maxBytes + 1)
          (lines.length / maxLines + 1) + 1) lines [] (by simp)
  have hf := JsonlProcessor.splitGo_flatten
    (lines.length /
        max (JsonlProcessor.fileSize lines / maxBytes + 1)
          (lines.length / maxLines + 1) + 1) lines []
  exact ⟨h.2, h.1, by simpa using hf⟩

/-- Witness for C1 (amended) at `maxBytes = maxLines = 1`,
file `["a"]`. -/
theorem C1_witness :
    0 < (1 : Nat) ∧
      (JsonlProcessor.split 1 1 ["a"]).flatten =
        JsonlProcessor.nonBlank ["a"] :=
  ⟨by decide, (C1_amended_chunk_shape 1 1 ["a"] (by decide) (by decide)).2.2⟩

/-- Claim C2, as stated, is false: `split` writes each retained line
stripped of surrounding whitespace, so for the one-line file `" a "` the
concatenation of the chunks is `["a"]`, not the original non-blank line
`" a "`. -/
theorem C2_counterexample :
    (JsonlProcessor.split JsonlProcessor.MAX_SIZE_BYTES
        JsonlProcessor.MAX_LINES [" a "]).flatten ≠
      [" a "].filter (fun l => !(pyStrip l == "")) := by decide

/-- Claim C2 (amended): concatenating all chunk files produced by `split`
in index order yields exactly the stripped forms of the original file's
non-blank lines, in the original order — no line is duplicated or
dropped, but each line appears with leading/trailing whitespace
removed. -/
theorem C2_amended_roundtrip (maxBytes maxLines : Nat) (lines : List String)
    (hB : 0 < maxBytes) (hL : 0 < maxLines) :
    (JsonlProcessor.split maxBytes maxLines lines).flatten =
      (lines.filter (fun l => !(pyStrip l == ""))).map pyStrip := by
  have hf := JsonlProcessor.splitGo_flatten
    (lines.length /
        max (JsonlProcessor.fileSize lines / maxBytes + 1)
          (lines.length / maxLines + 1) + 1) lines []
  rw [← JsonlProcessor.nonBlank_eq_map_filter]
  simpa using hf

/-- Witness for C2 (amended) at the class-constant ceilings,
file `[" a ", "", "b"]`. -/
theorem C2_witness :
    0 < JsonlProcessor.MAX_SIZE_BYTES ∧ 0 < JsonlProcessor.MAX_LINES ∧
      (JsonlProcessor.split JsonlProcessor.MAX_SIZE_BYTES
          JsonlProcessor.MAX_LINES [" a ", "", "b"]).flatten =
        ([" a ", "", "b"].filter (fun l => !(pyStrip l == ""))).map pyStrip :=
  ⟨by decide, by decide,
    C2_amended_roundtrip JsonlProcessor.MAX_SIZE_BYTES JsonlProcessor.MAX_LINES
      [" a ", "", "b"] (by decide) (by decide)⟩

/-- Claim C8, as stated, is false: the file `[" "]` is non-empty (its
byte size is 2), yet `split` writes no chunk at all, because the single
line is blank after stripping and blank lines are dropped before
chunking. -/
theorem C8_counterexample :
    JsonlProcessor.fileSize [" "] ≠ 0 ∧
      JsonlProcessor.split JsonlProcessor.MAX_SIZE_BYTES
        JsonlProcessor.MAX_LINES [" "] = [] := by decide

/-- Claim C8 (amended): for every input file containing at least one line
that is non-blank after stripping, `split` produces at least one chunk
file, and no chunk it produces holds more lines than the original file's
total line count. -/
theorem C8_amended_bounds (maxBytes maxLines : Nat) (lines : List String)
    (h : ∃ l ∈ lines, (pyStrip l == "") = false) :
    JsonlProcessor.split maxBytes maxLines lines ≠ [] ∧
      ∀ c ∈ JsonlProcessor.split maxBytes maxLines lines,
        c.length ≤ lines.length := by
  have hflat : (JsonlProcessor.split maxBytes maxLines lines).flatten =
      JsonlProcessor.nonBlank lines := by
    simpa using JsonlProcessor.splitGo_flatten
      (lines.length /
          max (JsonlProcessor.fileSize lines / maxBytes + 1)
            (lines.length / maxLines + 1) + 1) lines []
  obtain ⟨l, hl, hbl⟩ := h
  have hmem : pyStrip l ∈ JsonlProcessor.nonBlank lines := by
    refine List.mem_filter.mpr ⟨List.mem_map_of_mem _ hl, ?_⟩
    simp [hbl]
  constructor
  · intro hnil
    rw [hnil] at hflat
    rw [← hflat] at hmem
    simp at hmem
  · intro c hc
    calc c.length
        ≤ ((JsonlProcessor.split maxBytes maxLines lines).map
            List.length).sum :=
          List.le_sum_of_mem (List.mem_map_of_mem _ hc)
      _ = (JsonlProcessor.split maxBytes maxLines lines).flatten.length :=
          (List.length_flatten _).symm
      _ = (JsonlProcessor.nonBlank lines).length := by rw [hflat]
      _ ≤ lines.length := JsonlProcessor.nonBlank_length_le lines

/-- Witness for C8 (amended) at `maxBytes = maxLines = 1`,
file `["x"]`. -/
theorem C8_witness :
    (∃ l ∈ ["x"], (pyStrip l == "") = false) ∧
      JsonlProcessor.split 1 1 ["x"] ≠ [] :=
  ⟨by decide, (C8_amended_bounds 1 1 ["x"] (by decide)).1⟩

/-- Claim C6: `needs_splitting` returns `true` iff the byte size exceeds
`maxBytes` or the line count exceeds `maxLines`; the size check comes
first, so when it fires the reason is the size reason regardless of the
line count, otherwise an exceeded line count yields the line-count
reason, and below both thresholds the result is `(false, "")`. -/
theorem C6_needs_splitting (maxBytes maxLines fsize lcount : Nat) :
    ((JsonlProcessor.needs_splitting maxBytes maxLines fsize lcount).1 = true ↔
      (maxBytes < fsize ∨ maxLines < lcount)) ∧
    (maxBytes < fsize →
      JsonlProcessor.needs_splitting maxBytes maxLines fsize lcount =
        (true, JsonlProcessor.sizeReason fsize maxBytes)) ∧
    (fsize ≤ maxBytes → maxLines < lcount →
      JsonlProcessor.needs_splitting maxBytes maxLines fsize lcount =
        (true, JsonlProcessor.lineReason lcount maxLines)) ∧
    (fsize ≤ maxBytes → lcount ≤ maxLines →
      JsonlProcessor.needs_splitting maxBytes maxLines fsize lcount =
        (false, "")) := by
  unfold JsonlProcessor.needs_splitting
  split_ifs with h1 h2 <;> constructor <;> simp_all <;> omega

/-- Witness for C6 at thresholds `10/5`, size `11`, `0` lines: the size
threshold alone triggers splitting. -/
theorem C6_witness :
    (JsonlProcessor.needs_splitting 10 5 11 0).1 = true ↔
      (10 < 11 ∨ 5 < 0) :=
  (C6_needs_splitting 10 5 11 0).1

/-- Claim C7: `validate` counts a line as invalid iff it is empty after
stripping whitespace or fails to parse as JSON (for any JSON parser
`isValidJson` standing for `json.loads`), counts it valid otherwise, and
the two counts sum to the file's total line count. -/
theorem C7_validate_counts (isValidJson : String → Bool) (lines : List String) :
    (JsonlProcessor.validate isValidJson lines).1 +
        (JsonlProcessor.validate isValidJson lines).2 = lines.length ∧
    (JsonlProcessor.validate isValidJson lines).1 =
      lines.countP (fun l => !(pyStrip l == "") && isValidJson (pyStrip l)) ∧
    (JsonlProcessor.validate isValidJson lines).2 =
      lines.countP (fun l => (pyStrip l == "") || !isValidJson (pyStrip l)) := by
  induction lines with
  | nil => simp [JsonlProcessor.validate]
  | cons l ls ih =>
    obtain ⟨ih1, ih2, ih3⟩ := ih
    cases hb : pyStrip l == ""
    · cases hv : isValidJson (pyStrip l) <;>
        · simp [JsonlProcessor.validate, hb, hv, List.countP_cons, ih1, ih2, ih3]
          omega
    · simp [JsonlProcessor.validate, hb, List.countP_cons, ih1, ih2, ih3]
      omega

/-! ## Claims about the signing tool, the job submitter and the CLI loop -/

/-- Claim C3: for every HMAC-SHA256 function and all inputs, the
signature of `_generate_signature` is exactly the spec's step-by-step
description — canonical headers built by lower-casing and
percent-encoding keys, percent-encoding values, joining with `:`,
sorting lexicographically and joining with newline; signing key =
HMAC-SHA256(secretKey, authStringPrefix); signature = HMAC-SHA256 of the
raw canonical request (not its digest) keyed by the hex encoding of the
signing key; result `{authStringPrefix}/{signedHeaderNames}/{signatureHex}`. -/
theorem C3_signature_refinement (hmacSha256 : String → String → List Nat)
    (ak sk : String) (expiration_seconds : Nat) (method uri query : String)
    (headers : List (String × String)) (signed_headers x_bce_date : String) :
    BceAuth.generate_canonical_headers headers =
        BceAuth.specCanonicalHeaders headers ∧
      BceAuth.generate_signature hmacSha256 ak sk expiration_seconds method
          uri query headers signed_headers x_bce_date =
        BceAuth.specSignature hmacSha256 ak sk expiration_seconds method
          uri query headers signed_headers x_bce_date :=
  ⟨rfl, rfl⟩

/-- Claim C4 exposes a code bug: `wait_for_jobs` tests statuses against
`['SUCCESS', 'FAILED', 'CANCELED']`, so none of the vendor's terminal
statuses `Done`/`Failed`/`Cancelled` (the ones `check_task_status`
reports from `runStatus` and the rest of the code uses) is recognised;
a task whose status is reported as `Done` survives every sweep and the
loop never stops. -/
theorem C4_code_bug :
    (Cli.waitTerminalStatuses.contains "Done" = false ∧
      Cli.waitTerminalStatuses.contains "Failed" = false ∧
      Cli.waitTerminalStatuses.contains "Cancelled" = false) ∧
    ∀ n : Nat,
      (Cli.sweep (fun t =>
          JobSubmitter.check_task_status (.ok ⟨t, "Done", 100⟩)))^[n]
        ["t1"] = ["t1"] := by
  refine ⟨by decide, ?_⟩
  intro n
  induction n with
  | zero => rfl
  | succ k ih =>
    rw [Function.iterate_succ_apply', ih]
    decide

/-- Claim C5, as stated, is false: `submit_job` raises `ImportError`
when the `qianfan` package is missing and `ValueError` when the BOS URI
does not start with `bos:/` — both before its `try` block — so these
exceptions do propagate out of the client layer. -/
theorem C5_counterexample :
    JobSubmitter.submit_job ⟨false, fun _ _ => .ok "tid"⟩ "bos:/bucket/key" =
        .error .importError ∧
      JobSubmitter.submit_job ⟨true, fun _ _ => .ok "tid"⟩ "s3:/bucket/key" =
        .error .valueError :=
  ⟨rfl, rfl⟩

/-- Claim C5 (amended): remote-call errors are indeed converted to a
success flag with an empty or partial result — `submit_job` returns
normally for every behaviour of the remote call once the qianfan package
is present and the (normalised) URI starts with `bos:/`,
`check_task_status` maps a failed request to the empty result, and
`list_tasks` maps a failing page fetch to the empty list — but the
`ImportError`/`ValueError` preconditions of `submit_job` are raised, not
converted. -/
theorem C5_amended_no_propagation (env : JobSubmitter.SubmitEnv) (uri : String)
    (h1 : env.hasQianfan = true)
    (h2 : strStartsWith
        (if strStartsWith uri "bos://" then strReplace uri "bos://" "bos:/"
         else uri) "bos:/" = true) :
    (JobSubmitter.submit_job env uri).isOk = true ∧
    (∀ e : String, JobSubmitter.check_task_status (.error e) = none) ∧
    (∀ (e : String) (limit offset : Nat),
      JobSubmitter.list_tasks (fun _ => .error e) limit offset = []) := by
  refine ⟨?_, fun e => rfl, ?_⟩
  · simp only [JobSubmitter.submit_job, h1, h2, Bool.not_true, Bool.false_eq_true,
      if_false, Bool.not_false]
    split
    · rfl
    · split <;> rfl
  · intro e limit offset
    cases limit <;>
      simp [JobSubmitter.list_tasks, JobSubmitter.listTasksRun, JobSubmitter.listGo]

/-- Witness for C5 (amended): qianfan present, a well-formed URI, and a
succeeding remote call. -/
theorem C5_witness :
    strStartsWith "bos:/b/k" "bos:/" = true ∧
      (JobSubmitter.submit_job ⟨true, fun _ _ => .ok "tid"⟩ "bos:/b/k").isOk =
        true :=
  ⟨by decide,
    (C5_amended_no_propagation ⟨true, fun _ _ => .ok "tid"⟩ "bos:/b/k" rfl
      (by decide)).1⟩

/-- Claim C9: calling `list_tasks` with `limit = 5` against a paginated
backend that serves 3 tasks per page (`isTruncated` true while more
remain) issues exactly 2 page requests and returns exactly the first 5
tasks, not 6. -/
theorem C9_pagination_scenario :
    JobSubmitter.listTasksRun
        (fun m =>
          if m == "" then
            .ok ⟨[⟨"t1", "Running", 0⟩, ⟨"t2", "Running", 0⟩,
                  ⟨"t3", "Running", 0⟩], true⟩
          else if m == "t3" then
            .ok ⟨[⟨"t4", "Running", 0⟩, ⟨"t5", "Running", 0⟩,
                  ⟨"t6", "Running", 0⟩], true⟩
          else if m == "t6" then
            .ok ⟨[⟨"t7", "Running", 0⟩, ⟨"t8", "Running", 0⟩,
                  ⟨"t9", "Running", 0⟩], false⟩
          else .ok ⟨[], false⟩)
        5 0 =
      ([⟨"t1", "Running", 0⟩, ⟨"t2", "Running", 0⟩, ⟨"t3", "Running", 0⟩,
        ⟨"t4", "Running", 0⟩, ⟨"t5", "Running", 0⟩], 2) := by decide

theorem collectPage_length_le (limit : Nat) :
    ∀ (ts acc : List JobSubmitter.TaskResult) (marker : String),
      acc.length ≤ limit →
      (JobSubmitter.collectPage limit acc marker ts).1.length ≤ limit := by
  intro ts
  induction ts with
  | nil =>
    intro acc marker h
    simpa [JobSubmitter.collectPage] using h
  | cons t ts ih =>
    intro acc marker h
    by_cases hl : limit ≤ acc.length
    · simpa [JobSubmitter.collectPage, hl] using h
    · have h' : (acc ++ [t]).length ≤ limit := by
        simp only [List.length_append, List.length_singleton]
        omega
      simpa [JobSubmitter.collectPage, hl] using ih _ _ h'

theorem listGo_length_le (fetch : String → Except String JobSubmitter.Page)
    (limit : Nat) :
    ∀ (fuel : Nat) (marker : String) (acc : List JobSubmitter.TaskResult)
      (reqs : Nat), acc.length ≤ limit →
      (JobSubmitter.listGo fetch limit fuel marker acc reqs).1.length ≤ limit := by
  intro fuel
  induction fuel with
  | zero =>
    intro marker acc reqs h
    simpa [JobSubmitter.listGo] using h
  | succ fuel ih =>
    intro marker acc reqs h
    rw [JobSubmitter.listGo]
    by_cases hlt : acc.length < limit
    · rw [if_pos hlt]
      rcases hf : fetch marker with e | page
      · simpa using h
      · have hcoll := collectPage_length_le limit page.taskList acc marker h
        by_cases htr : (!page.isTruncated || page.taskList.isEmpty) = true
        · simpa [htr] using hcoll
        · simp only [htr, Bool.false_eq_true, if_false]
          exact ih _ _ _ hcoll
    · rw [if_neg hlt]
      exact h

/-- Claim C10: for every backend, limit, and positive offset,
`list_tasks` returns at most `limit - offset` tasks — and none at all
when `offset ≥ limit` — because the offset is applied by slicing the
already-collected list, whose length never exceeds `limit`, rather than
by skipping `offset` tasks of the backend stream before collecting
`limit` of them. -/
theorem C10_offset_slicing (fetch : String → Except String JobSubmitter.Page)
    (limit offset : Nat) (h : 0 < offset) :
    (JobSubmitter.list_tasks fetch limit offset).length ≤ limit - offset ∧
      (limit ≤ offset → JobSubmitter.list_tasks fetch limit offset = []) := by
  have hall : (JobSubmitter.listGo fetch limit (limit + 1) "" [] 0).1.length ≤
      limit :=
    listGo_length_le fetch limit (limit + 1) "" [] 0 (by simp)
  have hlen : (JobSubmitter.list_tasks fetch limit offset).length ≤
      limit - offset := by
    unfold JobSubmitter.list_tasks JobSubmitter.listTasksRun
    simp only [h, if_pos]
    rw [List.length_take, List.length_drop]
    omega
  exact ⟨hlen, fun hle =>
    List.eq_nil_of_length_eq_zero (by omega)⟩

/-- Witness for C10 at `limit = 3`, `offset = 1` against an empty
backend. -/
theorem C10_witness :
    0 < 1 ∧
      (JobSubmitter.list_tasks (fun _ => .ok ⟨[], false⟩) 3 1).length ≤ 3 - 1 :=
  ⟨by decide,
    (C10_offset_slicing (fun _ => .ok ⟨[], false⟩) 3 1 (by decide)).1⟩

